import Mathlib

set_option maxRecDepth 100000

/-
Verification of the LXB/FCS3.0 decoder core (src/lxb.c) against its
natural-language specification.

The C source is shallowly embedded: byte buffers are lists of naturals
(one per byte), C ints are unbounded Int with explicit 32-bit wrapping
where the machine width matters, and the global parameter mask table is
threaded explicitly as a value.  The helper library map_lib.h and the
bundled strsep.h are not part of src/, so their semantics (an
association map with last-write-wins updates, missing keys read as the
empty string, and the standard strsep splitting contract) are modelled
from the specification text.
-/

namespace Lxb

/-- A byte buffer: one natural number (expected below 256) per byte. -/
abbrev Bytes := List Nat

/-- Bytes of an ASCII string literal, used to transcribe the C string
literals of the source. -/
def str2bytes (s : String) : Bytes := s.data.map Char.toNat

/-- C isspace on ASCII: space, tab, newline, vertical tab, form feed,
carriage return. -/
def isSpaceB (b : Nat) : Bool := b == 32 || (9 ≤ b && b ≤ 13)

/-- C isdigit on ASCII. -/
def isDigitB (b : Nat) : Bool := 48 ≤ b && b ≤ 57

/-- Value of a list of ASCII digit bytes read as a decimal numeral. -/
def digitsVal (l : Bytes) : Nat := l.foldl (fun a d => a * 10 + (d - 48)) 0

/-- Drop leading whitespace bytes. -/
def skipWs : Bytes → Bytes
  | [] => []
  | b :: r => if isSpaceB b then skipWs r else b :: r

/-- The C string starting at byte offset off of the buffer: the bytes up
to the first NUL byte or the end of the buffer.  (The source never
stores a terminator in the file buffer; running to the end of the
buffer is modelled as end of input.) -/
def cstr (buf : Bytes) (off : Nat) : Bytes := (buf.drop off).takeWhile (fun b => b != 0)

/-- Result of one sscanf(%8d) conversion: a matched integer, an input
failure before any conversion character (sscanf returns EOF), or a
matching failure (sscanf returns 0). -/
inductive ScanRes
  | ok (v : Int)
  | eof
  | fail
deriving DecidableEq

/-- sscanf("%8d") on a byte string: skip unbounded whitespace, then an
optional sign and decimal digits limited to 8 characters in total.  No
digits is a matching failure; end of input before the conversion starts
is an input failure (EOF). -/
def scanInt (s : Bytes) : ScanRes :=
  match skipWs s with
  | [] => ScanRes.eof
  | b :: r =>
    if b == 45 || b == 43 then
      let ds := (r.take 7).takeWhile isDigitB
      if ds.isEmpty then ScanRes.fail
      else ScanRes.ok (if b == 45 then -(digitsVal ds : Int) else (digitsVal ds : Int))
    else
      let ds := ((b :: r).take 8).takeWhile isDigitB
      if ds.isEmpty then ScanRes.fail else ScanRes.ok (digitsVal ds)

/-- sscanf(&data[off], "%8d", ...) of the source. -/
def scan8 (buf : Bytes) (off : Nat) : ScanRes := scanInt (cstr buf off)

/-- C atoi on a byte string: skip whitespace, optional sign, leading
digits; 0 when no digits are present. -/
def atoi (s : Bytes) : Int :=
  match skipWs s with
  | [] => 0
  | b :: r =>
    if b == 45 then -(digitsVal (r.takeWhile isDigitB) : Int)
    else if b == 43 then (digitsVal (r.takeWhile isDigitB) : Int)
    else (digitsVal ((b :: r).takeWhile isDigitB) : Int)

/-- Modelled from the spec: map_lib.h is not under src/.  The metadata
dictionary is an association list of byte strings; per the spec keys are
unique and a later write for an existing key overwrites the value. -/
abbrev Map := List (Bytes × Bytes)

/-- Modelled from the spec: map_set of map_lib.h, last write wins. -/
def map_set (m : Map) (k v : Bytes) : Map :=
  if m.any (fun p => p.1 == k) then m.map (fun p => if p.1 == k then (k, v) else p)
  else m ++ [(k, v)]

/-- Modelled from the spec: map_get of map_lib.h. -/
def map_get (m : Map) (k : Bytes) : Option Bytes :=
  (m.find? (fun p => p.1 == k)).map Prod.snd

/-- Modelled from the spec: a missing key is read as the empty string
(the spec treats missing required keys as a non-matching empty string). -/
def map_getD (m : Map) (k : Bytes) : Bytes := (map_get m k).getD []

/-- Modelled from the spec: map_get_int of map_lib.h, the integer value
of the entry, 0 when absent or non-numeric (atoi semantics). -/
def map_get_int (m : Map) (k : Bytes) : Int := atoi (map_getD m k)

/-- Split a byte string on a delimiter byte; like strsep repeated until
the end, always returns at least one (possibly empty) token. -/
def splitB (d : Nat) : Bytes → List Bytes
  | [] => [[]]
  | b :: r =>
    if b == d then [] :: splitB d r
    else
      match splitB d r with
      | t :: ts => (b :: t) :: ts
      | [] => [[b]]

/-- Consume a token stream in strict key/value pairs, discarding a final
unpaired token, as the strsep loop of parse_text does. -/
def pairUp : List (Bytes) → List (Bytes × Bytes)
  | k :: v :: r => (k, v) :: pairUp r
  | _ => []

/-- Fold a pair list into a dictionary, later pairs overwriting earlier
ones for the same key. -/
def mapOfPairs (l : List (Bytes × Bytes)) : Map :=
  l.foldl (fun m kv => map_set m kv.1 kv.2) []

/-- parse_text of the source: for a range of at least two bytes, the
first byte is the delimiter and the rest is split on it into key/value
pairs.  Because the splitting walks a NUL-terminated C string copy,
processing stops at the first NUL byte of the content (strsep reports
end of string there), which the takeWhile reflects. -/
def parse_text (range : Bytes) : Option Map :=
  match range with
  | [] => none
  | d :: rest =>
    if rest.isEmpty then none
    else some (mapOfPairs (pairUp (splitB d (rest.takeWhile (fun b => b != 0)))))

/-- The dictionary that claim C6 describes, in the words of the spec:
literally split all the bytes after the first on the delimiter byte,
pair them up, discard a final unpaired token, last write wins.  Kept
separate from parse_text so the two can be compared. -/
def literal_dict (range : Bytes) : Option Map :=
  match range with
  | [] => none
  | d :: rest =>
    if rest.isEmpty then none
    else some (mapOfPairs (pairUp (splitB d rest)))

/-- parameter_key of the source: the key "$PnT" for parameter index n
(0-based) and type byte t, empty for an index outside [0, 99).  The
source takes an int and also rejects negative indexes; the model indexes
with Nat. -/
def parameter_key (n : Nat) (t : Nat) : Bytes :=
  if 99 ≤ n then []
  else str2bytes "$P" ++ str2bytes (Nat.repr (n + 1)) ++ [t]

/-- The value init_parameter_mask stores for one in-range parameter:
the $PnR integer, decremented when positive. -/
def mask_entry (m : Map) (i : Nat) : Int :=
  let v := map_get_int m (parameter_key i 82)
  if 0 < v then v - 1 else v

/-- init_parameter_mask of the source: the 99-entry global mask table,
zeroed and then filled for indexes below $PAR.  The global array is
modelled as a returned value (the table is rebuilt from the same
dictionary it was built from at every use, which matches the single
assignment of the global in the source).  The source is only called
with $PAR at most 99, which the 99-entry range reflects. -/
def init_parameter_mask (m : Map) : List Int :=
  (List.range 99).map fun (i : Nat) =>
    if (i : Int) < map_get_int m (str2bytes "$PAR") then mask_entry m i else 0

/-- parameter_mask of the source: read entry n of the mask table, 0 for
an index outside [0, 99). -/
def parameter_mask (tbl : List Int) (n : Int) : Int :=
  if 0 ≤ n ∧ n < 99 then tbl.getD n.toNat 0 else 0

/-- Lowercase a byte string (ASCII), as strcasecmp compares. -/
def strlowerB (s : Bytes) : Bytes := s.map fun b => if 65 ≤ b ∧ b ≤ 90 then b + 32 else b

/-- strcasecmp(...) == 0 of the source. -/
def strcaseeq (a b : Bytes) : Bool := strlowerB a == strlowerB b

/-- check_par_format of the source: at most 99 parameters, $DATATYPE is
I, $MODE is L, $BYTEORD is exactly 1,2,3,4, and every declared
parameter is 32 bits wide.  The $UNICODE branch only emits a warning
and is omitted.  The bit-width loop runs for indexes below $PAR, which
the guarded range-99 pass reflects (a negative or zero $PAR runs it
zero times). -/
def check_par_format (m : Map) : Bool :=
  let npar := map_get_int m (str2bytes "$PAR")
  if 99 < npar then false
  else if ¬ strcaseeq (map_getD m (str2bytes "$DATATYPE")) (str2bytes "I") then false
  else if ¬ strcaseeq (map_getD m (str2bytes "$MODE")) (str2bytes "L") then false
  else if map_getD m (str2bytes "$BYTEORD") ≠ str2bytes "1,2,3,4" then false
  else (List.range 99).all fun i =>
    if npar ≤ (i : Int) then true
    else map_get_int m (parameter_key i 66) == 32

/-- The six segment bounds of the FCS header. -/
structure Header where
  begin_text : Int
  end_text : Int
  begin_data : Int
  end_data : Int
  begin_analysis : Int
  end_analysis : Int
deriving DecidableEq

/-- One header field conversion as the source consumes it: a matched
value is stored; an input failure (sscanf EOF, returned as -1) leaves
ok true via the bool-and and leaves the field uninitialized, modelled by
keeping the junk value jv; a matching failure clears ok. -/
def scanField (buf : Bytes) (off : Nat) (jv : Int) : Option Int :=
  match scan8 buf off with
  | ScanRes.ok v => some v
  | ScanRes.eof => some jv
  | ScanRes.fail => none

/-- parse_header of the source.  junk is the uninitialized stack content
of the fcs_header local of the caller; a field whose conversion hits an
input failure keeps its junk value. -/
def parse_header (junk : Header) (buf : Bytes) : Option Header :=
  if 58 ≤ buf.length then
    if buf.take 10 = str2bytes "FCS3.0    " then
      match scanField buf 10 junk.begin_text, scanField buf 18 junk.end_text,
            scanField buf 26 junk.begin_data, scanField buf 34 junk.end_data,
            scanField buf 42 junk.begin_analysis, scanField buf 50 junk.end_analysis with
      | some bt, some et, some bd, some ed, some ba, some ea =>
        some (Header.mk bt et bd ed ba ea)
      | _, _, _, _, _, _ => none
    else none
  else none

/-- A sub-range of the buffer: buf + off, length len (pointer arithmetic
of the source). -/
def slice (buf : Bytes) (off len : Int) : Bytes := (buf.drop off.toNat).take len.toNat

/-- Outcome of parse_segments: the metadata dictionary out-parameter,
the DATA segment offset out-parameter, and whether parse_segments
itself already called free on the buffer (it does exactly on the failed
TEXT bounds check). -/
structure SegRes where
  txt : Option Map
  dataOff : Option Int
  freedEarly : Bool
deriving DecidableEq

/-- parse_segments of the source. -/
def parse_segments (junk : Header) (buf : Bytes) : SegRes :=
  match parse_header junk buf with
  | none => SegRes.mk none none false
  | some hdr =>
    if 0 < hdr.end_text - hdr.begin_text ∧ 0 < hdr.begin_text ∧
        hdr.end_text ≤ (buf.length : Int) then
      match parse_text (slice buf hdr.begin_text (hdr.end_text - hdr.begin_text)) with
      | none => SegRes.mk none none false
      | some m =>
        if check_par_format m then
          if 0 < hdr.end_data - hdr.begin_data ∧ 0 < hdr.begin_data ∧
              hdr.end_data ≤ (buf.length : Int) then
            SegRes.mk (some m) (some hdr.begin_data) false
          else SegRes.mk (some m) none false
        else SegRes.mk (some m) none false
    else SegRes.mk none none true

/-- Two's-complement reading of a 32-bit word. -/
def toSigned32 (n : Nat) : Int :=
  if n % 2 ^ 32 < 2 ^ 31 then ((n % 2 ^ 32 : Nat) : Int) else ((n % 2 ^ 32 : Nat) : Int) - 2 ^ 32

/-- The little-endian signed 32-bit integer at byte offset off of the
buffer (reading past the end of the buffer yields 0 bytes in the model;
the source would read out of bounds there). -/
def read_i32 (buf : Bytes) (off : Nat) : Int :=
  toSigned32 (buf.getD off 0 + 256 * buf.getD (off + 1) 0 + 65536 * buf.getD (off + 2) 0 +
    16777216 * buf.getD (off + 3) 0)

/-- Bitwise AND of two C ints, 32-bit two's complement. -/
def and32 (a b : Int) : Int :=
  toSigned32 (Nat.land (a % 2 ^ 32).toNat (b % 2 ^ 32).toNat)

/-- The npar-by-ntot output matrix: nrow = $PAR, ncol = $TOT, and the
flat element list in the column-major storage order the source fills. -/
structure Mat where
  nrow : Int
  ncol : Int
  flat : List Int
deriving DecidableEq

/-- Entry of the matrix at row p (parameter) and column e (event), per
the column-major storage of an nrow-by-ncol matrix. -/
def Mat.entry (m : Mat) (p e : Nat) : Int := m.flat.getD (e * m.nrow.toNat + p) 0

/-- $PAR of a dictionary as the source reads it. -/
def nparOf (m : Map) : Int := map_get_int m (str2bytes "$PAR")

/-- $TOT of a dictionary as the source reads it. -/
def ntotOf (m : Map) : Int := map_get_int m (str2bytes "$TOT")

/-- The flat element list the decoding loop of read_lxb produces:
ntot*npar little-endian words starting at buffer offset bd, each ANDed
with the mask of its parameter (i modulo npar, C truncated modulo). -/
def decode_flat (buf : Bytes) (tbl : List Int) (bd npar ntot : Int) : List Int :=
  (List.range (ntot * npar).toNat).map fun i =>
    and32 (read_i32 buf (bd.toNat + 4 * i)) (parameter_mask tbl (Int.tmod (i : Int) npar))

/-- The matrix read_lxb builds when the DATA segment was located. -/
def mkMat (buf : Bytes) (txt : Map) (bd : Int) : Mat :=
  Mat.mk (nparOf txt) (ntotOf txt)
    (decode_flat buf (init_parameter_mask txt) bd (nparOf txt) (ntotOf txt))

/-- The dictionary the pipeline parses from the TEXT segment named by
the given header, or the empty dictionary when parsing fails (used to
phrase side conditions about the parsed metadata). -/
def mtxtOf (buf : Bytes) (hdr : Header) : Map :=
  (parse_text (slice buf hdr.begin_text (hdr.end_text - hdr.begin_text))).getD []

/-- The value read_lxb hands back to R: none models R_NilValue; data is
the matrix slot, text the metadata slot (present when the caller set
the text flag). -/
structure Result where
  data : Option Mat
  text : Option Map
deriving DecidableEq

/-- read_lxb of the source, from the point where the file buffer exists:
parse the segments, give up (NilValue) without metadata, otherwise
return the decoded matrix (when the DATA segment was located) and the
dictionary (when the text flag is set). -/
def read_lxb (junk : Header) (textFlag : Bool) (buf : Bytes) : Option Result :=
  match (parse_segments junk buf).txt with
  | none => none
  | some txt =>
    some (Result.mk ((parse_segments junk buf).dataOff.map fun bd => mkMat buf txt bd)
      (if textFlag then some txt else none))

/-- How many times the file buffer is freed once read_lxb got it from
read_file: parse_segments frees it on the failed TEXT bounds check, and
read_lxb frees it once more on every path (either the early NilValue
return for a missing dictionary, or the final free). -/
def free_count (junk : Header) (buf : Bytes) : Nat :=
  (if (parse_segments junk buf).freedEarly then 1 else 0) + 1

/-! Concrete inputs used to settle the claims.  hdr6 assembles an FCS
header from the magic and the six 8-character offset fields. -/

/-- The 58 header bytes from six 8-character offset fields. -/
def hdr6 (bt et bd ed ba ea : String) : Bytes :=
  str2bytes ("FCS3.0    " ++ bt ++ et ++ bd ++ ed ++ ba ++ ea)

/-- A fixed choice for the uninitialized header stack content. -/
def junk0 : Header := Header.mk 0 0 0 0 0 0

/-- A valid one-parameter, one-event file whose $P1R key is absent and
whose single raw data value has all 32 bits set. -/
def bufC1 : Bytes :=
  hdr6 "      58" "     118" "     118" "     122" "       0" "       0" ++
    str2bytes "/$PAR/1/$DATATYPE/I/$MODE/L/$BYTEORD/1,2,3,4/$TOT/1/$P1B/32/" ++
    [255, 255, 255, 255]

/-- The dictionary parse_text produces for bufC1. -/
def mC1 : Map :=
  [(str2bytes "$PAR", str2bytes "1"), (str2bytes "$DATATYPE", str2bytes "I"),
   (str2bytes "$MODE", str2bytes "L"), (str2bytes "$BYTEORD", str2bytes "1,2,3,4"),
   (str2bytes "$TOT", str2bytes "1"), (str2bytes "$P1B", str2bytes "32")]

/-- A valid file declaring $TOT = 2 whose DATA segment is only 4 bytes
long ([132,136)); the bytes at [136,140) lie past end_data and hold the
little-endian value 42. -/
def bufC2 : Bytes :=
  hdr6 "      58" "     132" "     132" "     136" "       0" "       0" ++
    str2bytes "/$PAR/1/$DATATYPE/I/$MODE/L/$BYTEORD/1,2,3,4/$TOT/2/$P1B/32/$P1R/16777216/" ++
    [7, 0, 0, 0] ++ [42, 0, 0, 0]

/-- A 58-byte file with valid magic and all six offset fields zero, so
the TEXT bounds check fails. -/
def bufC3 : Bytes :=
  hdr6 "       0" "       0" "       0" "       0" "       0" "       0"

/-- A file whose TEXT segment parses but whose $DATATYPE key is absent,
so the format check fails after the metadata is produced. -/
def bufC4 : Bytes :=
  hdr6 "      58" "      74" "       0" "       0" "       0" "       0" ++
    str2bytes "/$PAR/1/$MODE/L/"

/-- The dictionary parse_text produces for bufC4. -/
def mC4 : Map :=
  [(str2bytes "$PAR", str2bytes "1"), (str2bytes "$MODE", str2bytes "L")]

/-- A 58-byte file with valid magic whose offset area is all spaces
followed by one NUL byte: every %8d conversion hits end of input before
any character, an input failure (EOF), not a matching failure. -/
def bufC5 : Bytes := str2bytes "FCS3.0    " ++ List.replicate 47 32 ++ [0]

/-- A TEXT range with an embedded NUL byte in a value position. -/
def cex6 : Bytes := str2bytes "/a/" ++ [0] ++ str2bytes "/b/c"

/-- A dictionary whose $P1R value parses as a negative integer. -/
def mC7 : Map := [(str2bytes "$PAR", str2bytes "1"), (str2bytes "$P1R", str2bytes "-2")]

/-- A dictionary with $P1R = 256, the masking example of the spec. -/
def mC7w : Map := [(str2bytes "$PAR", str2bytes "1"), (str2bytes "$P1R", str2bytes "256")]

/-- A valid two-parameter, two-event file with data values 1,2,3,4 in
on-disk order. -/
def bufC8 : Bytes :=
  hdr6 "      58" "     144" "     144" "     160" "       0" "       0" ++
    str2bytes
      "/$PAR/2/$DATATYPE/I/$MODE/L/$BYTEORD/1,2,3,4/$TOT/2/$P1B/32/$P2B/32/$P1R/256/$P2R/256/" ++
    [1, 0, 0, 0, 2, 0, 0, 0, 3, 0, 0, 0, 4, 0, 0, 0]

/-- The dictionary parse_text produces for bufC8. -/
def mC8 : Map :=
  [(str2bytes "$PAR", str2bytes "2"), (str2bytes "$DATATYPE", str2bytes "I"),
   (str2bytes "$MODE", str2bytes "L"), (str2bytes "$BYTEORD", str2bytes "1,2,3,4"),
   (str2bytes "$TOT", str2bytes "2"), (str2bytes "$P1B", str2bytes "32"),
   (str2bytes "$P2B", str2bytes "32"), (str2bytes "$P1R", str2bytes "256"),
   (str2bytes "$P2R", str2bytes "256")]

/-- A 58-byte file whose TEXT segment is the byte range [42,58), i.e.
exactly the two ANALYSIS offset fields, with space as the delimiter;
both ANALYSIS fields still parse as integers. -/
def bufC9A : Bytes :=
  str2bytes ("FCS3.0    " ++ "      42" ++ "      58" ++ "       0" ++ "       0" ++
    " 11 12 1" ++ "3 14 15 ")

/-- bufC9A with one TEXT byte (inside [42,58)) changed. -/
def bufC9B : Bytes :=
  str2bytes ("FCS3.0    " ++ "      42" ++ "      58" ++ "       0" ++ "       0" ++
    " 21 12 1" ++ "3 14 15 ")

/-- The TEXT content shared by the witness pair for claim C9. -/
def txt9 : String := "/$PAR/1/$DATATYPE/I/$MODE/L/$BYTEORD/1,2,3,4/$TOT/1/$P1B/32/$P1R/4/"

/-- A fully valid file whose begin_analysis field reads 1. -/
def bufC9WA : Bytes :=
  hdr6 "      58" "     125" "     125" "     129" "       1" "       1" ++ str2bytes txt9 ++
    [7, 0, 0, 0]

/-- bufC9WA with the begin_analysis field reading 2 instead. -/
def bufC9WB : Bytes :=
  hdr6 "      58" "     125" "     125" "     129" "       2" "       1" ++ str2bytes txt9 ++
    [7, 0, 0, 0]

/-- The dictionary parse_text produces for bufC9WA and bufC9WB. -/
def mC9 : Map :=
  [(str2bytes "$PAR", str2bytes "1"), (str2bytes "$DATATYPE", str2bytes "I"),
   (str2bytes "$MODE", str2bytes "L"), (str2bytes "$BYTEORD", str2bytes "1,2,3,4"),
   (str2bytes "$TOT", str2bytes "1"), (str2bytes "$P1B", str2bytes "32"),
   (str2bytes "$P1R", str2bytes "4")]

/-- A valid file whose TEXT segment has no $PAR key at all. -/
def bufC10 : Bytes :=
  hdr6 "      58" "     103" "     103" "     111" "       0" "       0" ++
    str2bytes "/$DATATYPE/I/$MODE/L/$BYTEORD/1,2,3,4/$TOT/2/" ++
    [0, 0, 0, 0, 0, 0, 0, 0]

/-- The dictionary parse_text produces for bufC10. -/
def mC10 : Map :=
  [(str2bytes "$DATATYPE", str2bytes "I"), (str2bytes "$MODE", str2bytes "L"),
   (str2bytes "$BYTEORD", str2bytes "1,2,3,4"), (str2bytes "$TOT", str2bytes "2")]

/-! Theorems. -/

/-- Element k of the decoding loop output, for k below the element
count. -/
theorem decode_flat_getD (buf : Bytes) (tbl : List Int) (bd npar ntot : Int) (k : Nat)
    (hk : k < (ntot * npar).toNat) :
    (decode_flat buf tbl bd npar ntot).getD k 0 =
      and32 (read_i32 buf (bd.toNat + 4 * k)) (parameter_mask tbl (Int.tmod (k : Int) npar)) := by
  rw [decode_flat, List.getD_eq_getElem?_getD, List.getElem?_map, List.getElem?_range hk]
  rfl

/-- When parse_segments produced a dictionary and located the DATA
segment, read_lxb returns the decoded matrix together with the
dictionary when the text flag is set. -/
theorem read_lxb_of_data (junk : Header) (tf : Bool) (buf : Bytes) (m : Map) (bd : Int)
    (hm : (parse_segments junk buf).txt = some m)
    (hd : (parse_segments junk buf).dataOff = some bd) :
    read_lxb junk tf buf = some (Result.mk (some (mkMat buf m bd))
      (if tf then some m else none)) := by
  rw [read_lxb, hm, hd]
  rfl

/-- C1, counterexample: on bufC1 the $P1R key is absent, so the mask
entry of parameter 0 is zero; the claim says the raw all-bits-set value
-1 is then passed through unmasked, but the decoder unconditionally
ANDs with the mask and stores 0. -/
theorem c1_counterexample :
    read_lxb junk0 false bufC1 = some (Result.mk (some (Mat.mk 1 1 [0])) none) ∧
    read_i32 bufC1 118 = -1 ∧
    map_get ((parse_segments junk0 bufC1).txt.getD []) (parameter_key 0 82) = none ∧
    parameter_mask (init_parameter_mask ((parse_segments junk0 bufC1).txt.getD [])) 0 = 0 ∧
    (0 : Int) ≠ -1 := by
  refine ⟨by decide, by decide, by decide, by decide, by decide⟩

/-- C1, amended: the output value at flattened index k is always the
raw little-endian 32-bit value ANDed with the mask table entry of its
parameter; a zero mask entry (absent, zero or non-positive $PnR) is
ANDed in like any other and therefore zeroes the value instead of
passing it through. -/
theorem c1_amended (junk : Header) (tf : Bool) (buf : Bytes) (m : Map) (bd : Int) (k : Nat)
    (hm : (parse_segments junk buf).txt = some m)
    (hd : (parse_segments junk buf).dataOff = some bd)
    (hk : k < (ntotOf m * nparOf m).toNat) :
    ∃ mat, read_lxb junk tf buf = some (Result.mk (some mat) (if tf then some m else none)) ∧
      mat.flat.getD k 0 =
        and32 (read_i32 buf (bd.toNat + 4 * k))
          (parameter_mask (init_parameter_mask m) (Int.tmod (k : Int) (nparOf m))) := by
  refine ⟨mkMat buf m bd, read_lxb_of_data junk tf buf m bd hm hd, ?_⟩
  exact decode_flat_getD buf (init_parameter_mask m) bd (nparOf m) (ntotOf m) k hk

/-- C1, witness for the amended theorem at bufC1, index 0. -/
theorem c1_amended_witness :
    ∃ mat, read_lxb junk0 false bufC1 = some (Result.mk (some mat) none) ∧
      mat.flat.getD 0 0 =
        and32 (read_i32 bufC1 ((118 : Int).toNat + 4 * 0))
          (parameter_mask (init_parameter_mask mC1) (Int.tmod ((0 : Nat) : Int) (nparOf mC1))) :=
  c1_amended junk0 false bufC1 mC1 118 0 (by decide) (by decide) (by decide)

/-- C2: on bufC2 the DATA segment is [132,136) and passes the bounds
check, but $PAR times $TOT is 2, so the decoder reads the 4 bytes at
[136,140), entirely at or past end_data = 136, and the value 42 stored
there appears in the output matrix.  The code has no cap at end_data;
the claim (and the spec) says it must never read past it. -/
theorem c2_overread :
    read_lxb junk0 false bufC2 = some (Result.mk (some (Mat.mk 1 2 [7, 42])) none) ∧
    parse_header junk0 bufC2 = some (Header.mk 58 132 132 136 0 0) ∧
    (136 : Int) ≤ 132 + 4 * 1 ∧
    read_i32 bufC2 136 = 42 := by
  refine ⟨by decide, by decide, by decide, by decide⟩

/-- C3: on bufC3 the header parses but the TEXT bounds check fails;
parse_segments frees the file buffer and returns no dictionary, and
read_lxb, seeing no dictionary, frees the same buffer a second time:
two frees of one allocation, where the claim requires exactly one. -/
theorem c3_double_free (junk : Header) : free_count junk bufC3 = 2 := by
  have h10 : scan8 bufC3 10 = ScanRes.ok 0 := by decide
  have h18 : scan8 bufC3 18 = ScanRes.ok 0 := by decide
  have h26 : scan8 bufC3 26 = ScanRes.ok 0 := by decide
  have h34 : scan8 bufC3 34 = ScanRes.ok 0 := by decide
  have h42 : scan8 bufC3 42 = ScanRes.ok 0 := by decide
  have h50 : scan8 bufC3 50 = ScanRes.ok 0 := by decide
  have hh : parse_header junk bufC3 = some (Header.mk 0 0 0 0 0 0) := by
    rw [parse_header, if_pos (by decide : 58 ≤ bufC3.length),
      if_pos (by decide : bufC3.take 10 = str2bytes "FCS3.0    ")]
    simp only [scanField, h10, h18, h26, h34, h42, h50]
  rw [free_count, parse_segments, hh]
  norm_num

/-- C4: whenever parse_segments yields the parsed dictionary but no
DATA offset (the format check or the DATA bounds check failed after the
metadata was parsed), read_lxb with the text flag set still returns the
dictionary unchanged, with an empty matrix slot. -/
theorem c4_partial_success (junk : Header) (buf : Bytes) (m : Map)
    (hm : (parse_segments junk buf).txt = some m)
    (hd : (parse_segments junk buf).dataOff = none) :
    read_lxb junk true buf = some (Result.mk none (some m)) := by
  rw [read_lxb, hm, hd]
  rfl

/-- C4, witness: bufC4 parses its TEXT segment but has no $DATATYPE
key, so the format check fails; the metadata alone is returned. -/
theorem c4_witness : read_lxb junk0 true bufC4 = some (Result.mk none (some mC4)) :=
  c4_partial_success junk0 bufC4 mC4 (by decide) (by decide)

/-- C5: on bufC5 (valid length and magic, offset area all spaces up to
a NUL byte) every one of the six %8d conversions fails to parse any
integer: each hits end of input, an input failure whose EOF return
value (-1) the bool-and of the source treats as success.  parse_header
therefore succeeds and hands back the six uninitialized (junk) bounds,
where the claim requires a MalformedOffsets failure. -/
theorem c5_header_eof_bug (junk : Header) :
    parse_header junk bufC5 = some junk ∧
    scan8 bufC5 10 = ScanRes.eof ∧ scan8 bufC5 18 = ScanRes.eof ∧
    scan8 bufC5 26 = ScanRes.eof ∧ scan8 bufC5 34 = ScanRes.eof ∧
    scan8 bufC5 42 = ScanRes.eof ∧ scan8 bufC5 50 = ScanRes.eof := by
  refine ⟨?_, by decide, by decide, by decide, by decide, by decide, by decide⟩
  rw [parse_header, if_pos (by decide : 58 ≤ bufC5.length),
    if_pos (by decide : bufC5.take 10 = str2bytes "FCS3.0    ")]
  simp only [scanField, (by decide : scan8 bufC5 10 = ScanRes.eof),
    (by decide : scan8 bufC5 18 = ScanRes.eof), (by decide : scan8 bufC5 26 = ScanRes.eof),
    (by decide : scan8 bufC5 34 = ScanRes.eof), (by decide : scan8 bufC5 42 = ScanRes.eof),
    (by decide : scan8 bufC5 50 = ScanRes.eof)]

/-- C6, counterexample: on a range with an embedded NUL byte the source
stops splitting at the NUL (strsep reports end of string there), so the
produced dictionary is not the literal split of the bytes after the
first that the claim describes. -/
theorem c6_counterexample :
    parse_text cex6 = some [(str2bytes "a", [])] ∧
    literal_dict cex6 = some [(str2bytes "a", [0]), (str2bytes "b", str2bytes "c")] ∧
    parse_text cex6 ≠ literal_dict cex6 := by
  refine ⟨by decide, by decide, by decide⟩

/-- A takeWhile over a list with no zero byte keeps the whole list. -/
theorem takeWhile_ne_zero (l : Bytes) (h : ∀ b ∈ l, b ≠ 0) :
    l.takeWhile (fun b => b != 0) = l := by
  induction l with
  | nil => rfl
  | cons a t ih =>
    rw [List.takeWhile_cons]
    have ha : (a != 0) = true := by
      simpa using h a (List.mem_cons_self a t)
    rw [ha]
    simp only [if_true]
    rw [ih fun b hb => h b (List.mem_cons_of_mem a hb)]

/-- C6, amended: for a byte range of length at least 2 whose bytes
after the first contain no NUL, parse_text produces exactly the
literal-split dictionary of the claim (pairing, last write wins, final
unpaired token discarded, doubled delimiters yielding empty tokens);
for a range shorter than 2 bytes it produces no dictionary. -/
theorem c6_amended (range : Bytes) (h : ∀ b ∈ range.drop 1, b ≠ 0) :
    parse_text range = literal_dict range ∧ (range.length < 2 → parse_text range = none) := by
  cases range with
  | nil => exact ⟨rfl, fun _ => rfl⟩
  | cons d rest =>
    constructor
    · rw [parse_text, literal_dict]
      cases hr : rest.isEmpty
      · simp only [Bool.false_eq_true, if_false]
        rw [takeWhile_ne_zero rest (by simpa using h)]
      · simp only [if_true]
    · intro hlen
      have : rest = [] := by
        cases rest with
        | nil => rfl
        | cons x xs =>
          exfalso
          simp only [List.length_cons] at hlen
          omega
      subst this
      rfl

/-- C6, witness for the amended theorem: the doubled-delimiter example
of the source comment parses to the literal split. -/
theorem c6_witness :
    parse_text (str2bytes "/k//ey/value/") = literal_dict (str2bytes "/k//ey/value/") :=
  (c6_amended (str2bytes "/k//ey/value/") (by decide)).1

/-- C7, counterexample: with $P1R = "-2" the mask table entry of
parameter 0 is -2, not the 0 the claim requires for a key that is
present without a positive value. -/
theorem c7_counterexample :
    map_get mC7 (parameter_key 0 82) = some (str2bytes "-2") ∧
    parameter_mask (init_parameter_mask mC7) 0 = -2 ∧ ((-2 : Int) ≠ 0) := by
  refine ⟨by decide, by decide, by decide⟩

/-- C7, amended: for parameter index i below $PAR (at most 99), the
mask table entry is the parsed $P(i+1)R value minus one when that value
is positive, and otherwise the parsed value itself, which is 0 for an
absent, non-numeric or zero key but negative for a negative one;
entries at or above $PAR are 0. -/
theorem c7_amended (m : Map) (i : Nat) (hi : i < 99) :
    parameter_mask (init_parameter_mask m) (i : Int) =
      if (i : Int) < nparOf m then
        (if 0 < map_get_int m (parameter_key i 82) then map_get_int m (parameter_key i 82) - 1
         else map_get_int m (parameter_key i 82))
      else 0 := by
  rw [parameter_mask, if_pos ⟨Int.natCast_nonneg i, by exact_mod_cast hi⟩, Int.toNat_natCast]
  rw [init_parameter_mask, List.getD_eq_getElem?_getD, List.getElem?_map, List.getElem?_range hi]
  rfl

/-- C7, witness for the amended theorem: $P1R = 256 yields mask 255. -/
theorem c7_witness : parameter_mask (init_parameter_mask mC7w) ((0 : Nat) : Int) = 255 := by
  rw [c7_amended mC7w 0 (by decide)]
  decide

/-- C8: the decoder consumes the DATA segment in on-disk order with the
parameter index varying fastest, and the output matrix is addressed
parameter-major: entry (p, e) of the matrix is the little-endian 32-bit
word number e * PAR + p of the segment, masked with the entry of
parameter p. -/
theorem c8_layout (junk : Header) (tf : Bool) (buf : Bytes) (m : Map) (bd : Int) (p e : Nat)
    (hm : (parse_segments junk buf).txt = some m)
    (hd : (parse_segments junk buf).dataOff = some bd)
    (hp : (p : Int) < nparOf m) (he : (e : Int) < ntotOf m) :
    ∃ mat, read_lxb junk tf buf = some (Result.mk (some mat) (if tf then some m else none)) ∧
      mat.nrow = nparOf m ∧ mat.ncol = ntotOf m ∧
      mat.entry p e =
        and32 (read_i32 buf (bd.toNat + 4 * (e * (nparOf m).toNat + p)))
          (parameter_mask (init_parameter_mask m) (p : Int)) := by
  refine ⟨mkMat buf m bd, read_lxb_of_data junk tf buf m bd hm hd, rfl, rfl, ?_⟩
  have hnp0 : 0 ≤ nparOf m := le_of_lt (lt_of_le_of_lt (Int.natCast_nonneg p) hp)
  have hnt0 : 0 ≤ ntotOf m := le_of_lt (lt_of_le_of_lt (Int.natCast_nonneg e) he)
  obtain ⟨np, hnp⟩ : ∃ n : Nat, nparOf m = (n : Int) :=
    ⟨(nparOf m).toNat, (Int.toNat_of_nonneg hnp0).symm⟩
  obtain ⟨nt, hnt⟩ : ∃ n : Nat, ntotOf m = (n : Int) :=
    ⟨(ntotOf m).toNat, (Int.toNat_of_nonneg hnt0).symm⟩
  have hpn : p < np := by
    rw [hnp] at hp
    exact_mod_cast hp
  have hen : e < nt := by
    rw [hnt] at he
    exact_mod_cast he
  rw [Mat.entry]
  show (decode_flat buf (init_parameter_mask m) bd (nparOf m) (ntotOf m)).getD
    (e * (nparOf m).toNat + p) 0 = _
  rw [hnp, hnt, Int.toNat_natCast]
  have hk : e * np + p < ((nt : Int) * (np : Int)).toNat := by
    rw [← Nat.cast_mul, Int.toNat_natCast]
    calc e * np + p < (e + 1) * np := by
          have := hpn
          nlinarith
    _ ≤ nt * np := Nat.mul_le_mul_right np (by omega)
  have hmod : Int.tmod ((e * np + p : Nat) : Int) ((np : Nat) : Int) =
      (((e * np + p) % np : Nat) : Int) := rfl
  rw [decode_flat_getD buf (init_parameter_mask m) bd ((np : Nat) : Int) ((nt : Nat) : Int) _ hk,
    hmod]
  have hmp : (e * np + p) % np = p := by
    rw [Nat.add_comm (e * np) p, Nat.add_mul_mod_self_right]
    exact Nat.mod_eq_of_lt hpn
  rw [hmp]

/-- C8, witness at bufC8: parameter 1 of event 1 is the fourth word of
the segment. -/
theorem c8_witness :
    ∃ mat, read_lxb junk0 false bufC8 = some (Result.mk (some mat) none) ∧
      mat.nrow = nparOf mC8 ∧ mat.ncol = ntotOf mC8 ∧
      mat.entry 1 1 =
        and32 (read_i32 bufC8 ((144 : Int).toNat + 4 * (1 * (nparOf mC8).toNat + 1)))
          (parameter_mask (init_parameter_mask mC8) ((1 : Nat) : Int)) :=
  c8_layout junk0 false bufC8 mC8 144 1 1 (by decide) (by decide) (by decide) (by decide)

/-- C10: a dictionary with $PAR absent or literally "0" that passes the
$DATATYPE, $MODE and $BYTEORD checks passes the whole format check (no
TooManyParameters failure, and the per-parameter bit-width loop runs
zero times), and the pipeline then returns a matrix with 0 rows and an
empty element list rather than failing. -/
theorem c10_zero_par (m : Map)
    (hpar : map_get m (str2bytes "$PAR") = none ∨
      map_get m (str2bytes "$PAR") = some (str2bytes "0"))
    (hI : strcaseeq (map_getD m (str2bytes "$DATATYPE")) (str2bytes "I") = true)
    (hL : strcaseeq (map_getD m (str2bytes "$MODE")) (str2bytes "L") = true)
    (hB : map_getD m (str2bytes "$BYTEORD") = str2bytes "1,2,3,4") :
    check_par_format m = true ∧
    ∀ junk tf buf bd, (parse_segments junk buf).txt = some m →
      (parse_segments junk buf).dataOff = some bd →
      read_lxb junk tf buf = some (Result.mk (some (Mat.mk 0 (ntotOf m) []))
        (if tf then some m else none)) := by
  have hnp : map_get_int m (str2bytes "$PAR") = 0 := by
    rw [map_get_int, map_getD]
    cases hpar with
    | inl h => rw [h]; rfl
    | inr h => rw [h]; decide
  constructor
  · rw [check_par_format]
    simp only [hnp, hI, hL, hB]
    norm_num
  · intro junk tf buf bd hm hd
    rw [read_lxb_of_data junk tf buf m bd hm hd]
    rw [mkMat, nparOf, hnp, decode_flat]
    norm_num

/-- Elementwise agreement of two buffers of equal length that agree on
their first 42 bytes and from byte 58 on, at any index outside the
window [42,58). -/
theorem getElem?_congr_outside (a b : Bytes) (hlen : a.length = b.length)
    (hpre : a.take 42 = b.take 42) (hsuf : a.drop 58 = b.drop 58) (i : Nat)
    (hi : i < 42 ∨ 58 ≤ i) : a[i]? = b[i]? := by
  cases hi with
  | inl h =>
    have ha : (a.take 42)[i]? = a[i]? := by
      rw [List.getElem?_take]
      exact if_pos h
    have hb : (b.take 42)[i]? = b[i]? := by
      rw [List.getElem?_take]
      exact if_pos h
    rw [← ha, ← hb, hpre]
  | inr h =>
    have ha : (a.drop 58)[i - 58]? = a[i]? := by
      rw [List.getElem?_drop]
      congr 1
      omega
    have hb : (b.drop 58)[i - 58]? = b[i]? := by
      rw [List.getElem?_drop]
      congr 1
      omega
    rw [← ha, ← hb, hsuf]

/-- getD version of the agreement outside [42,58). -/
theorem getD_congr_outside (a b : Bytes) (hlen : a.length = b.length)
    (hpre : a.take 42 = b.take 42) (hsuf : a.drop 58 = b.drop 58) (i : Nat)
    (hi : i < 42 ∨ 58 ≤ i) : a.getD i 0 = b.getD i 0 := by
  rw [List.getD_eq_getElem?_getD, List.getD_eq_getElem?_getD,
    getElem?_congr_outside a b hlen hpre hsuf i hi]

/-- Sub-ranges that stay outside the window [42,58) agree. -/
theorem slice_congr_outside (a b : Bytes) (hlen : a.length = b.length)
    (hpre : a.take 42 = b.take 42) (hsuf : a.drop 58 = b.drop 58) (o l : Nat)
    (hr : ∀ i, i < l → (o + i < 42 ∨ 58 ≤ o + i)) :
    (a.drop o).take l = (b.drop o).take l := by
  apply List.ext_getElem?
  intro n
  rw [List.getElem?_take, List.getElem?_take]
  by_cases hn : n < l
  · rw [if_pos hn, if_pos hn, List.getElem?_drop, List.getElem?_drop]
    exact getElem?_congr_outside a b hlen hpre hsuf (o + n) (hr n hn)
  · rw [if_neg hn, if_neg hn]

/-- slice version for an integer TEXT range outside the window. -/
theorem slice_congr_int (a b : Bytes) (hlen : a.length = b.length)
    (hpre : a.take 42 = b.take 42) (hsuf : a.drop 58 = b.drop 58) (bt et : Int)
    (hbt : 0 < bt) (hbe : bt < et) (hreg : et ≤ 42 ∨ 58 ≤ bt) :
    slice a bt (et - bt) = slice b bt (et - bt) := by
  rw [slice, slice]
  apply slice_congr_outside a b hlen hpre hsuf
  intro i hi
  cases hreg with
  | inl h =>
    left
    omega
  | inr h =>
    right
    omega

/-- 32-bit reads whose four byte offsets stay outside the window
agree. -/
theorem read_i32_congr_outside (a b : Bytes) (hlen : a.length = b.length)
    (hpre : a.take 42 = b.take 42) (hsuf : a.drop 58 = b.drop 58) (off : Nat)
    (hr : off + 3 < 42 ∨ 58 ≤ off) : read_i32 a off = read_i32 b off := by
  have g0 : a.getD off 0 = b.getD off 0 :=
    getD_congr_outside a b hlen hpre hsuf off (by omega)
  have g1 : a.getD (off + 1) 0 = b.getD (off + 1) 0 :=
    getD_congr_outside a b hlen hpre hsuf (off + 1) (by omega)
  have g2 : a.getD (off + 2) 0 = b.getD (off + 2) 0 :=
    getD_congr_outside a b hlen hpre hsuf (off + 2) (by omega)
  have g3 : a.getD (off + 3) 0 = b.getD (off + 3) 0 :=
    getD_congr_outside a b hlen hpre hsuf (off + 3) (by omega)
  rw [read_i32, read_i32, g0, g1, g2, g3]

/-- C9, counterexample: two 58-byte files that differ only at a byte
inside [42,58) and whose ANALYSIS fields parse as integers, yet whose
pipeline outputs differ - their TEXT segment is exactly the byte range
[42,58), so the changed byte reaches the metadata dictionary. -/
theorem c9_counterexample :
    bufC9A.length = bufC9B.length ∧ bufC9A.take 42 = bufC9B.take 42 ∧
    bufC9A.drop 58 = bufC9B.drop 58 ∧
    scan8 bufC9A 42 = ScanRes.ok 11 ∧ scan8 bufC9A 50 = ScanRes.ok 3 ∧
    scan8 bufC9B 42 = ScanRes.ok 21 ∧ scan8 bufC9B 50 = ScanRes.ok 3 ∧
    read_lxb junk0 true bufC9A ≠ read_lxb junk0 true bufC9B := by
  refine ⟨by decide, by decide, by decide, by decide, by decide, by decide, by decide,
    ne_of_beq_false (by decide)⟩

/-- C9, amended: for two buffers of equal length that agree outside the
header window [42,58), whose header parses, whose four TEXT/DATA offset
conversions do not depend on bytes beyond the first 42, whose two
ANALYSIS fields parse as integers in both buffers, and whose TEXT
segment and decoded DATA bytes lie entirely outside [42,58), the
pipeline outputs are identical. -/
theorem c9_amended (junk : Header) (tf : Bool) (a b : Bytes) (hdr : Header)
    (hlen : a.length = b.length)
    (hpre : a.take 42 = b.take 42)
    (hsuf : a.drop 58 = b.drop 58)
    (h10a : scan8 a 10 = scan8 (a.take 42) 10) (h10b : scan8 b 10 = scan8 (b.take 42) 10)
    (h18a : scan8 a 18 = scan8 (a.take 42) 18) (h18b : scan8 b 18 = scan8 (b.take 42) 18)
    (h26a : scan8 a 26 = scan8 (a.take 42) 26) (h26b : scan8 b 26 = scan8 (b.take 42) 26)
    (h34a : scan8 a 34 = scan8 (a.take 42) 34) (h34b : scan8 b 34 = scan8 (b.take 42) 34)
    (ha42 : ∃ v, scan8 a 42 = ScanRes.ok v) (ha50 : ∃ v, scan8 a 50 = ScanRes.ok v)
    (hb42 : ∃ v, scan8 b 42 = ScanRes.ok v) (hb50 : ∃ v, scan8 b 50 = ScanRes.ok v)
    (hhdr : parse_header junk a = some hdr)
    (htxt : hdr.end_text ≤ 42 ∨ 58 ≤ hdr.begin_text)
    (hdata : hdr.begin_data + 4 * (ntotOf (mtxtOf a hdr) * nparOf (mtxtOf a hdr)) ≤ 42 ∨
      58 ≤ hdr.begin_data) :
    read_lxb junk tf a = read_lxb junk tf b := by
  have e10 : scan8 a 10 = scan8 b 10 := by rw [h10a, hpre, ← h10b]
  have e18 : scan8 a 18 = scan8 b 18 := by rw [h18a, hpre, ← h18b]
  have e26 : scan8 a 26 = scan8 b 26 := by rw [h26a, hpre, ← h26b]
  have e34 : scan8 a 34 = scan8 b 34 := by rw [h34a, hpre, ← h34b]
  obtain ⟨va42, hva42⟩ := ha42
  obtain ⟨va50, hva50⟩ := ha50
  obtain ⟨vb42, hvb42⟩ := hb42
  obtain ⟨vb50, hvb50⟩ := hb50
  have hlen58 : 58 ≤ a.length := by
    by_contra h
    rw [parse_header, if_neg h] at hhdr
    exact Option.noConfusion hhdr
  have hmag : a.take 10 = str2bytes "FCS3.0    " := by
    by_contra h
    rw [parse_header, if_pos hlen58, if_neg h] at hhdr
    exact Option.noConfusion hhdr
  have hhdrA := hhdr
  rw [parse_header, if_pos hlen58, if_pos hmag] at hhdr
  have s42 : scanField a 42 junk.begin_analysis = some va42 := by
    simp only [scanField, hva42]
  have s50 : scanField a 50 junk.end_analysis = some va50 := by
    simp only [scanField, hva50]
  rw [s42, s50] at hhdr
  cases e10' : scanField a 10 junk.begin_text with
  | none => rw [e10'] at hhdr; simp at hhdr
  | some vbt =>
  cases e18' : scanField a 18 junk.end_text with
  | none => rw [e18'] at hhdr; simp at hhdr
  | some vet =>
  cases e26' : scanField a 26 junk.begin_data with
  | none => rw [e26'] at hhdr; simp at hhdr
  | some vbd =>
  cases e34' : scanField a 34 junk.end_data with
  | none => rw [e34'] at hhdr; simp at hhdr
  | some ved =>
  rw [e10', e18', e26', e34'] at hhdr
  have hdreq : Header.mk vbt vet vbd ved va42 va50 = hdr := Option.some.inj hhdr
  subst hdreq
  have hlenb : 58 ≤ b.length := hlen ▸ hlen58
  have hmagb : b.take 10 = str2bytes "FCS3.0    " := by
    have h1 : (b.take 42).take 10 = b.take 10 := by
      rw [List.take_take]
      norm_num
    have h2 : (a.take 42).take 10 = a.take 10 := by
      rw [List.take_take]
      norm_num
    rw [← h1, ← hpre, h2, hmag]
  have f10 : scanField b 10 junk.begin_text = some vbt := by
    simp only [scanField] at e10' ⊢
    rw [← e10]
    exact e10'
  have f18 : scanField b 18 junk.end_text = some vet := by
    simp only [scanField] at e18' ⊢
    rw [← e18]
    exact e18'
  have f26 : scanField b 26 junk.begin_data = some vbd := by
    simp only [scanField] at e26' ⊢
    rw [← e26]
    exact e26'
  have f34 : scanField b 34 junk.end_data = some ved := by
    simp only [scanField] at e34' ⊢
    rw [← e34]
    exact e34'
  have fb42 : scanField b 42 junk.begin_analysis = some vb42 := by
    simp only [scanField, hvb42]
  have fb50 : scanField b 50 junk.end_analysis = some vb50 := by
    simp only [scanField, hvb50]
  have hhdrB : parse_header junk b = some (Header.mk vbt vet vbd ved vb42 vb50) := by
    rw [parse_header, if_pos hlenb, if_pos hmagb, f10, f18, f26, f34, fb42, fb50]
  by_cases hC : 0 < vet - vbt ∧ 0 < vbt ∧ vet ≤ (a.length : Int)
  case neg =>
    have hCb : ¬(0 < vet - vbt ∧ 0 < vbt ∧ vet ≤ (b.length : Int)) := by
      rw [← hlen]
      exact hC
    have psA : parse_segments junk a = SegRes.mk none none true := by
      simp only [parse_segments, hhdrA, if_neg hC]
    have psB : parse_segments junk b = SegRes.mk none none true := by
      simp only [parse_segments, hhdrB, if_neg hCb]
    simp only [read_lxb, psA, psB]
  case pos =>
  have hCb : 0 < vet - vbt ∧ 0 < vbt ∧ vet ≤ (b.length : Int) := by
    rw [← hlen]
    exact hC
  have hsl : slice a vbt (vet - vbt) = slice b vbt (vet - vbt) :=
    slice_congr_int a b hlen hpre hsuf vbt vet hC.2.1 (by omega) htxt
  cases hT : parse_text (slice a vbt (vet - vbt)) with
  | none =>
    have psA : parse_segments junk a = SegRes.mk none none false := by
      simp only [parse_segments, hhdrA, if_pos hC, hT]
    have psB : parse_segments junk b = SegRes.mk none none false := by
      simp only [parse_segments, hhdrB, if_pos hCb, ← hsl, hT]
    simp only [read_lxb, psA, psB]
  | some m =>
  have hdata2 : vbd + 4 * (ntotOf m * nparOf m) ≤ 42 ∨ 58 ≤ vbd := by
    simp only [mtxtOf, hT, Option.getD_some] at hdata
    exact hdata
  by_cases hcheck : check_par_format m
  case neg =>
    have psA : parse_segments junk a = SegRes.mk (some m) none false := by
      simp only [parse_segments, hhdrA, if_pos hC, hT, if_neg hcheck]
    have psB : parse_segments junk b = SegRes.mk (some m) none false := by
      simp only [parse_segments, hhdrB, if_pos hCb, ← hsl, hT, if_neg hcheck]
    simp only [read_lxb, psA, psB, Option.map_none']
  case pos =>
  by_cases hD : 0 < ved - vbd ∧ 0 < vbd ∧ ved ≤ (a.length : Int)
  case neg =>
    have hDb : ¬(0 < ved - vbd ∧ 0 < vbd ∧ ved ≤ (b.length : Int)) := by
      rw [← hlen]
      exact hD
    have psA : parse_segments junk a = SegRes.mk (some m) none false := by
      simp only [parse_segments, hhdrA, if_pos hC, hT, if_pos hcheck, if_neg hD]
    have psB : parse_segments junk b = SegRes.mk (some m) none false := by
      simp only [parse_segments, hhdrB, if_pos hCb, ← hsl, hT, if_pos hcheck, if_neg hDb]
    simp only [read_lxb, psA, psB, Option.map_none']
  case pos =>
  have hDb : 0 < ved - vbd ∧ 0 < vbd ∧ ved ≤ (b.length : Int) := by
    rw [← hlen]
    exact hD
  have psA : parse_segments junk a = SegRes.mk (some m) (some vbd) false := by
    simp only [parse_segments, hhdrA, if_pos hC, hT, if_pos hcheck, if_pos hD]
  have psB : parse_segments junk b = SegRes.mk (some m) (some vbd) false := by
    simp only [parse_segments, hhdrB, if_pos hCb, ← hsl, hT, if_pos hcheck, if_pos hDb]
  have hmm : mkMat a m vbd = mkMat b m vbd := by
    rw [mkMat, mkMat]
    congr 1
    rw [decode_flat, decode_flat]
    apply List.map_congr_left
    intro i hi
    rw [List.mem_range] at hi
    congr 1
    apply read_i32_congr_outside a b hlen hpre hsuf
    cases hdata2 with
    | inl h =>
      left
      have hbd0 : 0 < vbd := hD.2.1
      omega
    | inr h =>
      right
      omega
  simp only [read_lxb, psA, psB, Option.map_some']
  rw [hmm]

/-- C9, witness for the amended theorem: a fully valid file and the
same file with a different begin_analysis field decode identically. -/
theorem c9_witness : read_lxb junk0 true bufC9WA = read_lxb junk0 true bufC9WB :=
  c9_amended junk0 true bufC9WA bufC9WB (Header.mk 58 125 125 129 1 1)
    (by decide) (by decide) (by decide)
    (by decide) (by decide) (by decide) (by decide)
    (by decide) (by decide) (by decide) (by decide)
    ⟨1, by decide⟩ ⟨1, by decide⟩ ⟨2, by decide⟩ ⟨1, by decide⟩
    (by decide) (by decide) (by decide)

/-- C10, witness: bufC10 has no $PAR key, its other checks pass, and
the pipeline yields a 0-row matrix and the metadata. -/
theorem c10_witness :
    check_par_format mC10 = true ∧
    read_lxb junk0 true bufC10 = some (Result.mk (some (Mat.mk 0 (ntotOf mC10) []))
      (some mC10)) := by
  have h := c10_zero_par mC10 (Or.inl (by decide)) (by decide) (by decide) (by decide)
  exact ⟨h.1, h.2 junk0 true bufC10 103 (by decide) (by decide)⟩

end Lxb
